import Mathlib

/-!
Verification of the `nicegui-router` package against its specification.

The package is glue code over the NiceGUI framework.  We embed the framework
calls that `ThemeBuild.build` (src/nicegui_router/theme.py) performs as an
effect trace: each call to `ui.add_css`, `ui.add_head_html`, `ui.add_body_html`,
`ui.colors` and `ui.run_javascript` is one emitted `Effect`.  The embedding
follows the Python source statement by statement.
-/

/-- One call into the wrapped framework's `ui` module.  A theme color scheme is
a Python dict, embedded as an association list of key/value strings. -/
inductive Effect where
  | addCss (s : String)
  | addHeadHtml (s : String)
  | addBodyHtml (s : String)
  | colors (theme : List (String × String))
  | runJavascript (s : String)
  deriving DecidableEq, Repr

/-- The autofill-suppression CSS block passed to `ui.add_css` at the top of
`ThemeBuild.build` (theme.py lines 35-41), with the exact whitespace of the
Python triple-quoted literal. -/
def autofillCss : String :=
  "\n            input:-webkit-autofill \x7b\n                -webkit-box-shadow: 0 0 0 1000px white inset !important;\n                box-shadow: 0 0 0 1000px white inset !important;\n                -webkit-text-fill-color: black !important;\n            \x7d\n        "

/-- The AOS stylesheet link passed to `ui.add_head_html` (theme.py line 43). -/
def aosHeadLink : String :=
  "<link href=\"https://cdn.jsdelivr.net/npm/aos@2.3.1/dist/aos.css\" rel=\"stylesheet\">"

/-- The AOS script tag passed to `ui.add_body_html` (theme.py line 44). -/
def aosBodyScript : String :=
  "<script src=\"https://cdn.jsdelivr.net/npm/aos@2.3.1/dist/aos.js\"></script>"

/-- The fixed prefix of the Google-Fonts link f-string (theme.py line 55). -/
def fontLinkPre : String := "<link href=\"https://fonts.googleapis.com/css2?family="

/-- The fixed suffix of the Google-Fonts link f-string (theme.py line 55). -/
def fontLinkSuf : String := "\" rel=\"stylesheet\">"

/-- The Google-Fonts link: the font name is interpolated verbatim between the
two fixed parts, as the f-string does. -/
def fontLinkHtml (font : String) : String := fontLinkPre ++ font ++ fontLinkSuf

/-- The fixed prefix of the font-family style f-string (theme.py lines 56-62). -/
def fontStylePre : String :=
  "\n                <style>\n                    body \x7b\n                        font-family: \x27"

/-- The fixed suffix of the font-family style f-string (theme.py lines 56-62). -/
def fontStyleSuf : String :=
  "\x27, sans-serif;\n                    \x7d\n                </style>\n            "

/-- The font-family style block: the font name is interpolated verbatim. -/
def fontStyleHtml (font : String) : String := fontStylePre ++ font ++ fontStyleSuf

/-- The JavaScript string passed to `ui.run_javascript` at the very end of
`ThemeBuild.build` (theme.py line 71). -/
def aosInitJs : String := "AOS.init();"

/-- The `ThemeBuild` object (theme.py lines 15-31): the constructor stores the
color-scheme dict and the optional font and the four string lists unchanged.
`font` is a Python `str` defaulting to `None`, embedded as `Option String`. -/
structure ThemeBuild where
  theme : List (String × String)
  font : Option String := none
  css : List String := []
  head : List String := []
  body : List String := []
  body_close : List String := []

/-- Python truthiness of the `font` field: `None` and the empty string are
falsy, every other string is truthy (`if self.font:` at theme.py line 54). -/
def strTruthy : Option String → Bool
  | none => false
  | some s => decide (s ≠ "")

/-- The UI monad: a framework call sequence threaded as a trace of effects
appended in execution order. -/
def UIM (α : Type) : Type := List Effect → α × List Effect

instance : Monad UIM where
  pure a := fun es => (a, es)
  bind m f := fun es => f (m es).1 (m es).2

/-- Perform one framework call. -/
def emit (e : Effect) : UIM Unit := fun es => ((), es ++ [e])

/-- Embedding of `ui.add_css`. -/
def ui_add_css (s : String) : UIM Unit := emit (Effect.addCss s)

/-- Embedding of `ui.add_head_html`. -/
def ui_add_head_html (s : String) : UIM Unit := emit (Effect.addHeadHtml s)

/-- Embedding of `ui.add_body_html`. -/
def ui_add_body_html (s : String) : UIM Unit := emit (Effect.addBodyHtml s)

/-- Embedding of `ui.colors(**theme)`: the dict is forwarded as the keyword
arguments of the call. -/
def ui_colors (theme : List (String × String)) : UIM Unit := emit (Effect.colors theme)

/-- Embedding of `ui.run_javascript`. -/
def ui_run_javascript (s : String) : UIM Unit := emit (Effect.runJavascript s)

/-- The part of `ThemeBuild.build` executed on entering the context manager,
i.e. everything before `yield` (theme.py lines 34-65), statement by
statement. -/
def ThemeBuild.build_enter (self : ThemeBuild) : UIM Unit := do
  ui_add_css autofillCss
  ui_add_head_html aosHeadLink
  ui_add_body_html aosBodyScript
  self.css.forM fun css => ui_add_css css
  self.head.forM fun head => ui_add_head_html head
  self.body.forM fun body => ui_add_body_html body
  if strTruthy self.font then
    ui_add_head_html (fontLinkHtml (self.font.getD ""))
    ui_add_head_html (fontStyleHtml (self.font.getD ""))
  ui_colors self.theme

/-- The part of `ThemeBuild.build` executed on exiting the context manager,
i.e. everything after `yield` (theme.py lines 67-71). -/
def ThemeBuild.build_exit (self : ThemeBuild) : UIM Unit := do
  self.body_close.forM fun body_close => ui_add_body_html body_close
  ui_run_javascript aosInitJs

/-- The whole `with theme.build():` block: the enter part, then the caller's
body (the `yield`), then the exit part. -/
def ThemeBuild.build (self : ThemeBuild) (caller : UIM Unit) : UIM Unit := do
  self.build_enter
  caller
  self.build_exit

/-- Run a UI computation from an empty trace and return the emitted trace. -/
def runUI (m : UIM Unit) : List Effect := (m []).2

/-- The framework calls made on entering the context. -/
def ThemeBuild.enterTrace (self : ThemeBuild) : List Effect := runUI self.build_enter

/-- The framework calls made on exiting the context. -/
def ThemeBuild.exitTrace (self : ThemeBuild) : List Effect := runUI self.build_exit

/-- A caller body that performs a given sequence of framework calls. -/
def emitAll (l : List Effect) : UIM Unit := l.forM emit

/-- The framework calls of a whole `with theme.build():` block whose body
performs the calls `caller`. -/
def ThemeBuild.buildTrace (self : ThemeBuild) (caller : List Effect) : List Effect :=
  runUI (self.build (emitAll caller))

/-- The font-related head HTML that `build` emits, as a function of the `font`
field: nothing when the field is falsy, the Google-Fonts link followed by the
font-family style when it is a non-empty string. -/
def fontHtml : Option String → List Effect
  | none => []
  | some s =>
      if s = "" then []
      else [Effect.addHeadHtml (fontLinkHtml s), Effect.addHeadHtml (fontStyleHtml s)]

theorem bind_apply {α β : Type} (m : UIM α) (f : α → UIM β) (es : List Effect) :
    (m >>= f) es = f (m es).1 (m es).2 := rfl

theorem pure_apply {α : Type} (a : α) (es : List Effect) :
    (pure a : UIM α) es = (a, es) := rfl

theorem forM_emit_run {α : Type} (f : α → Effect) (l : List α) (es : List Effect) :
    (l.forM fun a => emit (f a)) es = ((), es ++ l.map f) := by
  induction l generalizing es with
  | nil => simp [List.forM, pure_apply]
  | cons a as ih =>
      simp only [List.forM, bind_apply, emit, ih, List.map_cons, List.append_assoc,
        List.cons_append, List.nil_append]

theorem emitAll_run (l : List Effect) (es : List Effect) :
    emitAll l es = ((), es ++ l) := by
  have h := forM_emit_run (fun e => e) l es
  simpa [emitAll, List.map_id] using h

/-- The enter part of the trace, written out in execution order. -/
def enterList (tb : ThemeBuild) : List Effect :=
  Effect.addCss autofillCss :: Effect.addHeadHtml aosHeadLink ::
    Effect.addBodyHtml aosBodyScript ::
    (tb.css.map Effect.addCss ++ tb.head.map Effect.addHeadHtml ++
      tb.body.map Effect.addBodyHtml ++ fontHtml tb.font ++ [Effect.colors tb.theme])

/-- The exit part of the trace, written out in execution order. -/
def exitList (tb : ThemeBuild) : List Effect :=
  tb.body_close.map Effect.addBodyHtml ++ [Effect.runJavascript aosInitJs]

theorem fontHtml_eq (tb : ThemeBuild) :
    (if strTruthy tb.font then
        [Effect.addHeadHtml (fontLinkHtml (tb.font.getD "")),
         Effect.addHeadHtml (fontStyleHtml (tb.font.getD ""))]
      else []) = fontHtml tb.font := by
  cases h : tb.font with
  | none => simp [strTruthy, fontHtml]
  | some s =>
      by_cases hs : s = "" <;> simp [strTruthy, fontHtml, hs]

theorem build_enter_run (tb : ThemeBuild) (es : List Effect) :
    tb.build_enter es = ((), es ++ enterList tb) := by
  have hfont := fontHtml_eq tb
  by_cases hf : strTruthy tb.font = true
  · simp only [ThemeBuild.build_enter, bind_apply, ui_add_css, ui_add_head_html,
      ui_add_body_html, ui_colors, emit, forM_emit_run, hf, if_pos, enterList,
      ← hfont, List.append_assoc, List.cons_append, List.nil_append,
      List.singleton_append]
  · simp only [ThemeBuild.build_enter, bind_apply, ui_add_css, ui_add_head_html,
      ui_add_body_html, ui_colors, emit, forM_emit_run, hf, if_neg, pure_apply,
      enterList, ← hfont, Bool.false_eq_true, if_false,
      List.append_assoc, List.cons_append, List.nil_append,
      List.append_nil, List.singleton_append]

theorem build_exit_run (tb : ThemeBuild) (es : List Effect) :
    tb.build_exit es = ((), es ++ exitList tb) := by
  simp only [ThemeBuild.build_exit, bind_apply, ui_run_javascript, ui_add_body_html,
    emit, forM_emit_run, exitList, List.append_assoc]

theorem enterTrace_eq (tb : ThemeBuild) : tb.enterTrace = enterList tb := by
  simp [ThemeBuild.enterTrace, runUI, build_enter_run]

theorem exitTrace_eq (tb : ThemeBuild) : tb.exitTrace = exitList tb := by
  simp [ThemeBuild.exitTrace, runUI, build_exit_run]

theorem buildTrace_eq (tb : ThemeBuild) (caller : List Effect) :
    tb.buildTrace caller = enterList tb ++ caller ++ exitList tb := by
  simp [ThemeBuild.buildTrace, runUI, ThemeBuild.build, bind_apply,
    build_enter_run, emitAll_run, build_exit_run, List.append_assoc]

/-- The names bound by `src/nicegui_router/__init__.py` (lines 1-4): the
public interface of the package, read off the four `from ... import ...`
statements. -/
def initExports : List String :=
  ["NiceGUIConfig", "OpenAPIArgs", "Router",
   "RouteDecorator", "create_access_token", "get", "post", "put", "delete",
   "page", "get_auth", "post_auth", "put_auth", "delete_auth", "ws", "ws_auth",
   "ColorScheme", "ThemeBuild",
   "use_state"]

/-- The names the example route files and the example main module import from
the package: `src/example/routes/counter.py` line 1 imports page, ui, theme,
component, use_state; `index.py` imports page, ui; `about.py` imports page,
theme, ui; `src/example/main.py` line 1 imports Server. -/
def exampleImportedNames : List String :=
  ["page", "ui", "theme", "component", "use_state", "Server"]

/-- A route-definition file: its path and the names of its decorated
functions. -/
structure RouteFile where
  path : String
  handlers : List String
  deriving DecidableEq

/-- Modelled from the spec: the directory tree passed as `routes_dir`, over
which the missing `dynamic_router.py` loader walks ("auto-discovers
route-definition files in a directory tree"). -/
inductive DirTree where
  | file (f : RouteFile)
  | dir (name : String) (entries : List DirTree)

mutual

/-- Modelled from the spec: the directory walk of the missing
`DynamicRouterLoader` ("the file-system-to-route mapping is a directory
walk"): it collects every route-definition file in the tree. -/
def DirTree.discover : DirTree → List RouteFile
  | DirTree.file f => [f]
  | DirTree.dir _ entries => discoverEntries entries

/-- Walk the entries of a directory in order. -/
def discoverEntries : List DirTree → List RouteFile
  | [] => []
  | t :: ts => t.discover ++ discoverEntries ts

end

/-- Modelled from the spec: the missing `DynamicRouterLoader` imports every
discovered route file and "registers them as pages/API endpoints"; the
application's endpoint table is the decorated functions of all discovered
files. -/
def DynamicRouterLoader.registered (routes_dir : DirTree) : List String :=
  (routes_dir.discover).foldr (fun f acc => f.handlers ++ acc) []

/-- Membership of a route file somewhere in a directory tree, independent of
the walk. -/
inductive ContainsFile : DirTree → RouteFile → Prop
  | here : ∀ (f : RouteFile), ContainsFile (DirTree.file f) f
  | there : ∀ (name : String) (entries : List DirTree) (t : DirTree) (f : RouteFile),
      t ∈ entries → ContainsFile t f → ContainsFile (DirTree.dir name entries) f

/-- Modelled from the spec: a UI component as seen by the missing
`reactive.py` state hook: its stored state slots (one per `use_state` call
site, keyed by call index) and whether a re-render has been triggered. -/
structure Component (α : Type) where
  slots : List (Nat × α)
  needsRender : Bool

/-- Look up the stored state of a call site. -/
def lookupSlot {α : Type} (slots : List (Nat × α)) (idx : Nat) : Option α :=
  (slots.find? fun p => p.1 == idx).map Prod.snd

/-- Modelled from the spec: `use_state` from the missing `reactive.py`, "a
small reactive-state helper returning a value/setter pair tied to the
enclosing UI component's re-render cycle": the value is the stored
component-local state, or the initial value when nothing is stored yet; the
setter stores a new value and triggers the component's re-render. -/
def use_state {α : Type} (idx : Nat) (init : α) (c : Component α) :
    α × (α → Component α → Component α) :=
  ((lookupSlot c.slots idx).getD init,
   fun v c2 => { slots := (idx, v) :: c2.slots, needsRender := true })

/-- The wrapped framework's constructor call, capturing the keyword arguments
it receives. -/
structure FrameworkCtor (κ : Type) where
  kwargs : List (String × κ)

/-- The wrapped framework's listen/run call, capturing the keyword arguments
it receives. -/
structure FrameworkRun (κ : Type) where
  kwargs : List (String × κ)

/-- Modelled from the spec: the `Server` class (imported by
`src/example/main.py` but missing from src/): it holds the user's `ui`
options dictionary, "forwarded verbatim to the wrapped framework's
constructor". -/
structure Server (κ : Type) where
  ui : List (String × κ)

/-- Modelled from the spec: the framework constructor call the server makes,
with the user's `ui` options dictionary as its keyword arguments. -/
def Server.frameworkCtor {κ : Type} (s : Server κ) : FrameworkCtor κ :=
  ⟨s.ui⟩

/-- Modelled from the spec: `Server.listen` forwards its options verbatim to
the framework's listen/run call. -/
def Server.listen {κ : Type} (_s : Server κ) (opts : List (String × κ)) : FrameworkRun κ :=
  ⟨opts⟩

/-- Run a trace of framework calls against a fallible framework: the first
call the framework fails aborts the run with that error, unchanged; the
package adds no handling of its own. -/
def runEffects {ε : Type} (handler : Effect → Except ε Unit) : List Effect → Except ε Unit
  | [] => Except.ok ()
  | e :: es =>
      match handler e with
      | Except.ok _ => runEffects handler es
      | Except.error err => Except.error err

/-- The string of an `ui.add_css` call, if the effect is one. -/
def cssArg : Effect → Option String
  | Effect.addCss s => some s
  | _ => none

/-- The string of an `ui.add_head_html` call, if the effect is one. -/
def headHtmlArg : Effect → Option String
  | Effect.addHeadHtml s => some s
  | _ => none

/-- The string of an `ui.add_body_html` call, if the effect is one. -/
def bodyHtmlArg : Effect → Option String
  | Effect.addBodyHtml s => some s
  | _ => none

/-- The keyword-argument dictionary of a `ui.colors` call, if the effect is
one. -/
def colorsArg : Effect → Option (List (String × String))
  | Effect.colors t => some t
  | _ => none

/-- The strings passed to `ui.add_css` in a trace. -/
def cssStrings (l : List Effect) : List String := l.filterMap cssArg

/-- The strings passed to `ui.add_head_html` in a trace. -/
def headHtmlStrings (l : List Effect) : List String := l.filterMap headHtmlArg

/-- The strings passed to `ui.add_body_html` in a trace. -/
def bodyHtmlStrings (l : List Effect) : List String := l.filterMap bodyHtmlArg

/-- The keyword-argument dictionaries of the `ui.colors` calls in a trace. -/
def colorsCalls (l : List Effect) : List (List (String × String)) := l.filterMap colorsArg

theorem fontHtml_cases (f : Option String) :
    fontHtml f = [] ∨
      ∃ s, fontHtml f =
        [Effect.addHeadHtml (fontLinkHtml s), Effect.addHeadHtml (fontStyleHtml s)] := by
  cases f with
  | none => exact Or.inl rfl
  | some s =>
      by_cases hs : s = ""
      · exact Or.inl (by simp [fontHtml, hs])
      · exact Or.inr ⟨s, by simp [fontHtml, hs]⟩

theorem filterMap_map_none {γ α β : Type} (g : γ → Option β) (f : α → γ)
    (hg : ∀ a, g (f a) = none) (l : List α) : (l.map f).filterMap g = [] := by
  induction l with
  | nil => rfl
  | cons a as ih => simp [List.filterMap_cons, hg, ih]

theorem filterMap_map_self {γ α : Type} (g : γ → Option α) (f : α → γ)
    (hg : ∀ a, g (f a) = some a) (l : List α) : (l.map f).filterMap g = l := by
  induction l with
  | nil => rfl
  | cons a as ih => simp [List.filterMap_cons, hg, ih]

theorem cssStrings_enterList (tb : ThemeBuild) :
    cssStrings (enterList tb) = autofillCss :: tb.css := by
  have hhead := filterMap_map_none cssArg Effect.addHeadHtml (fun a => rfl) tb.head
  have hbody := filterMap_map_none cssArg Effect.addBodyHtml (fun a => rfl) tb.body
  have hcss := filterMap_map_self cssArg Effect.addCss (fun a => rfl) tb.css
  have hfont : (fontHtml tb.font).filterMap cssArg = [] := by
    rcases fontHtml_cases tb.font with h | ⟨s, h⟩ <;> simp [h, cssArg, List.filterMap_cons]
  simp [enterList, cssStrings, List.filterMap_cons, List.filterMap_append,
    hhead, hbody, hcss, hfont, cssArg]

theorem headHtmlStrings_enterList (tb : ThemeBuild) :
    ∃ rest, headHtmlStrings (enterList tb) = aosHeadLink :: (tb.head ++ rest) := by
  have hcss := filterMap_map_none headHtmlArg Effect.addCss (fun a => rfl) tb.css
  have hbody := filterMap_map_none headHtmlArg Effect.addBodyHtml (fun a => rfl) tb.body
  have hhead := filterMap_map_self headHtmlArg Effect.addHeadHtml (fun a => rfl) tb.head
  refine ⟨(fontHtml tb.font).filterMap headHtmlArg, ?_⟩
  simp [enterList, headHtmlStrings, List.filterMap_cons, List.filterMap_append,
    hcss, hbody, hhead, headHtmlArg]

theorem bodyHtmlStrings_enterList (tb : ThemeBuild) :
    bodyHtmlStrings (enterList tb) = aosBodyScript :: tb.body := by
  have hcss := filterMap_map_none bodyHtmlArg Effect.addCss (fun a => rfl) tb.css
  have hhead := filterMap_map_none bodyHtmlArg Effect.addHeadHtml (fun a => rfl) tb.head
  have hbody := filterMap_map_self bodyHtmlArg Effect.addBodyHtml (fun a => rfl) tb.body
  have hfont : (fontHtml tb.font).filterMap bodyHtmlArg = [] := by
    rcases fontHtml_cases tb.font with h | ⟨s, h⟩ <;>
      simp [h, bodyHtmlArg, List.filterMap_cons]
  simp [enterList, bodyHtmlStrings, List.filterMap_cons, List.filterMap_append,
    hcss, hhead, hbody, hfont, bodyHtmlArg]

theorem bodyHtmlStrings_exitList (tb : ThemeBuild) :
    bodyHtmlStrings (exitList tb) = tb.body_close := by
  have hbc := filterMap_map_self bodyHtmlArg Effect.addBodyHtml (fun a => rfl) tb.body_close
  simp [exitList, bodyHtmlStrings, List.filterMap_cons, List.filterMap_append,
    hbc, bodyHtmlArg]

theorem colorsCalls_enterList (tb : ThemeBuild) :
    colorsCalls (enterList tb) = [tb.theme] := by
  have hcss := filterMap_map_none colorsArg Effect.addCss (fun a => rfl) tb.css
  have hhead := filterMap_map_none colorsArg Effect.addHeadHtml (fun a => rfl) tb.head
  have hbody := filterMap_map_none colorsArg Effect.addBodyHtml (fun a => rfl) tb.body
  have hfont : (fontHtml tb.font).filterMap colorsArg = [] := by
    rcases fontHtml_cases tb.font with h | ⟨s, h⟩ <;>
      simp [h, colorsArg, List.filterMap_cons]
  simp [enterList, colorsCalls, List.filterMap_cons, List.filterMap_append,
    hcss, hhead, hbody, hfont, colorsArg]

theorem runEffects_all_ok {ε : Type} (handler : Effect → Except ε Unit) :
    ∀ l : List Effect, (∀ e ∈ l, handler e = Except.ok ()) →
      runEffects handler l = Except.ok () := by
  intro l h
  induction l with
  | nil => rfl
  | cons e es ih =>
      have he := h e (List.Mem.head _)
      simp only [runEffects, he]
      exact ih fun x hx => h x (List.Mem.tail _ hx)

theorem runEffects_error_mem {ε : Type} (handler : Effect → Except ε Unit) :
    ∀ (l : List Effect) (err : ε), runEffects handler l = Except.error err →
      ∃ e ∈ l, handler e = Except.error err := by
  intro l
  induction l with
  | nil => intro err h; simp [runEffects] at h
  | cons e es ih =>
      intro err h
      cases he : handler e with
      | ok u =>
          simp only [runEffects, he] at h
          obtain ⟨x, hx, hxe⟩ := ih err h
          exact ⟨x, List.Mem.tail _ hx, hxe⟩
      | error err2 =>
          simp only [runEffects, he, Except.error.injEq] at h
          exact ⟨e, List.Mem.head _, h ▸ he⟩

theorem runEffects_first_error {ε : Type} (handler : Effect → Except ε Unit) :
    ∀ (pre : List Effect) (e : Effect) (post : List Effect) (err : ε),
      (∀ x ∈ pre, handler x = Except.ok ()) → handler e = Except.error err →
      runEffects handler (pre ++ e :: post) = Except.error err := by
  intro pre
  induction pre with
  | nil => intro e post err _ he; simp only [List.nil_append, runEffects, he]
  | cons a pre ih =>
      intro e post err hpre he
      have ha := hpre a (List.Mem.head _)
      simp only [List.cons_append, runEffects, ha]
      exact ih e post err (fun x hx => hpre x (List.Mem.tail _ hx)) he

theorem foldr_handlers_mem (fname : String) :
    ∀ (l : List RouteFile) (f : RouteFile), f ∈ l → fname ∈ f.handlers →
      fname ∈ l.foldr (fun f acc => f.handlers ++ acc) [] := by
  intro l
  induction l with
  | nil => intro f hf; cases hf
  | cons a as ih =>
      intro f hf hn
      cases hf with
      | head => exact List.mem_append_left _ hn
      | tail _ h => exact List.mem_append_right _ (ih f h hn)

theorem mem_discoverEntries {f : RouteFile} :
    ∀ {entries : List DirTree} {t : DirTree}, t ∈ entries → f ∈ t.discover →
      f ∈ discoverEntries entries := by
  intro entries
  induction entries with
  | nil => intro t ht; cases ht
  | cons a as ih =>
      intro t ht hf
      cases ht with
      | head => exact List.mem_append_left _ hf
      | tail _ h => exact List.mem_append_right _ (ih h hf)

theorem mem_discover_of_contains {d : DirTree} {f : RouteFile}
    (h : ContainsFile d f) : f ∈ d.discover := by
  induction h with
  | here f => exact List.Mem.head _
  | there name entries t f ht hcf ih => exact mem_discoverEntries ht ih

/-- Claim C1: the color-scheme dictionary a `ThemeBuild` was constructed with
is forwarded unchanged as the keyword arguments of exactly one `ui.colors`
call when the context is entered. -/
theorem theme_forwarded_to_single_colors_call (tb : ThemeBuild) :
    colorsCalls tb.enterTrace = [tb.theme] := by
  rw [enterTrace_eq]; exact colorsCalls_enterList tb

/-- Claim C2: on entering `ThemeBuild.build` every string of `css` is passed
to `ui.add_css`, every string of `head` to `ui.add_head_html` and every string
of `body` to `ui.add_body_html`, and on exiting every string of `body_close`
is passed to `ui.add_body_html`; no element of any list is skipped (each list
is a sublist, with multiplicity and order, of the strings the corresponding
framework call receives). -/
theorem all_custom_strings_emitted (tb : ThemeBuild) :
    List.Sublist tb.css (cssStrings tb.enterTrace)
    ∧ List.Sublist tb.head (headHtmlStrings tb.enterTrace)
    ∧ List.Sublist tb.body (bodyHtmlStrings tb.enterTrace)
    ∧ List.Sublist tb.body_close (bodyHtmlStrings tb.exitTrace) := by
  rw [enterTrace_eq, exitTrace_eq]
  refine ⟨?_, ?_, ?_, ?_⟩
  · rw [cssStrings_enterList]
    exact List.Sublist.cons _ (List.Sublist.refl _)
  · obtain ⟨rest, h⟩ := headHtmlStrings_enterList tb
    rw [h]
    exact List.Sublist.cons _ (List.sublist_append_left _ _)
  · rw [bodyHtmlStrings_enterList]
    exact List.Sublist.cons _ (List.Sublist.refl _)
  · rw [bodyHtmlStrings_exitList]

/-- Claim C8: whatever the constructor arguments (empty lists and absent font
included), entering `build` emits the autofill-suppression CSS, the AOS
stylesheet link and the AOS body script, and exiting the context runs the
JavaScript `AOS.init();`. -/
theorem unconditional_injections (tb : ThemeBuild) :
    Effect.addCss autofillCss ∈ tb.enterTrace
    ∧ Effect.addHeadHtml aosHeadLink ∈ tb.enterTrace
    ∧ Effect.addBodyHtml aosBodyScript ∈ tb.enterTrace
    ∧ Effect.runJavascript aosInitJs ∈ tb.exitTrace := by
  rw [enterTrace_eq, exitTrace_eq]
  refine ⟨List.Mem.head _, List.Mem.tail _ (List.Mem.head _),
    List.Mem.tail _ (List.Mem.tail _ (List.Mem.head _)), ?_⟩
  simp [exitList]

/-- Claim C9: the framework calls of a whole `with theme.build():` block come
in a fixed order: autofill CSS, AOS head link, AOS body script, the custom
css, head and body strings in list order, the optional font link and style,
the `ui.colors` call, then the caller's body, then the `body_close` strings
in list order, and finally `AOS.init();`. -/
theorem build_effect_order (tb : ThemeBuild) (caller : List Effect) :
    tb.buildTrace caller =
      [Effect.addCss autofillCss, Effect.addHeadHtml aosHeadLink,
        Effect.addBodyHtml aosBodyScript]
      ++ tb.css.map Effect.addCss
      ++ tb.head.map Effect.addHeadHtml
      ++ tb.body.map Effect.addBodyHtml
      ++ fontHtml tb.font
      ++ [Effect.colors tb.theme]
      ++ caller
      ++ tb.body_close.map Effect.addBodyHtml
      ++ [Effect.runJavascript aosInitJs] := by
  rw [buildTrace_eq]
  simp [enterList, exitList, List.append_assoc]

/-- Claim C10: the font link and font-family style appear in the entered
trace exactly when the `font` field is a non-empty string (with `font = none`
or an empty string nothing font-related is emitted), and the font name is
interpolated verbatim into both the link URL and the style block. -/
theorem font_injection_iff_nonempty_font (tb : ThemeBuild) :
    (fontHtml tb.font = [] ↔ tb.font = none ∨ tb.font = some "")
    ∧ (∀ s, tb.font = some s → s ≠ "" →
        fontHtml tb.font =
          [Effect.addHeadHtml (fontLinkPre ++ s ++ fontLinkSuf),
            Effect.addHeadHtml (fontStylePre ++ s ++ fontStyleSuf)])
    ∧ tb.enterTrace =
        (Effect.addCss autofillCss :: Effect.addHeadHtml aosHeadLink ::
          Effect.addBodyHtml aosBodyScript ::
          (tb.css.map Effect.addCss ++ tb.head.map Effect.addHeadHtml ++
            tb.body.map Effect.addBodyHtml))
        ++ fontHtml tb.font ++ [Effect.colors tb.theme] := by
  refine ⟨?_, ?_, ?_⟩
  · cases h : tb.font with
    | none => simp [fontHtml]
    | some s =>
        by_cases hs : s = "" <;> simp [fontHtml, hs]
  · intro s hf hs
    simp [fontHtml, hf, hs, fontLinkHtml, fontStyleHtml]
  · rw [enterTrace_eq]
    simp [enterList, List.append_assoc]

theorem font_injection_witness :
    fontHtml (ThemeBuild.mk [] (some "Lato") [] [] [] []).font =
      [Effect.addHeadHtml (fontLinkPre ++ "Lato" ++ fontLinkSuf),
        Effect.addHeadHtml (fontStylePre ++ "Lato" ++ fontStyleSuf)] :=
  (font_injection_iff_nonempty_font (ThemeBuild.mk [] (some "Lato") [] [] [] [])).2.1
    "Lato" rfl (by decide)

/-- Claim C3 evaluation: the example modules import `ui`, `component` and
`Server` (and call `theme` as a function) from the package, but
`src/nicegui_router/__init__.py` binds none of those names; only `page` and
`use_state` among the example imports are actually re-exported. -/
theorem example_imports_missing_from_init_exports :
    ("ui" ∈ exampleImportedNames ∧ "ui" ∉ initExports)
    ∧ ("component" ∈ exampleImportedNames ∧ "component" ∉ initExports)
    ∧ ("Server" ∈ exampleImportedNames ∧ "Server" ∉ initExports)
    ∧ ("theme" ∈ exampleImportedNames ∧ "theme" ∉ initExports)
    ∧ "page" ∈ initExports ∧ "use_state" ∈ initExports := by decide

/-- Claim C4: for every directory passed as `routes_dir`, the route loader's
directory walk discovers every route-definition file contained anywhere in
the tree, and every decorated function of such a file is registered as an
endpoint of the application. -/
theorem loader_registers_all_route_files (d : DirTree) :
    (∀ f, ContainsFile d f → f ∈ d.discover)
    ∧ (∀ f fname, ContainsFile d f → fname ∈ f.handlers →
        fname ∈ DynamicRouterLoader.registered d) := by
  refine ⟨fun f h => mem_discover_of_contains h, fun f fname h hn => ?_⟩
  exact foldr_handlers_mem fname d.discover f (mem_discover_of_contains h) hn

/-- A small concrete routes directory with a nested subdirectory. -/
def sampleRoutesDir : DirTree :=
  DirTree.dir "routes"
    [DirTree.file ⟨"index.py", ["home"]⟩,
      DirTree.dir "sub" [DirTree.file ⟨"counter.py", ["counter"]⟩]]

theorem loader_registers_witness :
    (⟨"counter.py", ["counter"]⟩ : RouteFile) ∈ sampleRoutesDir.discover
    ∧ "counter" ∈ DynamicRouterLoader.registered sampleRoutesDir := by
  have hc : ContainsFile sampleRoutesDir ⟨"counter.py", ["counter"]⟩ :=
    ContainsFile.there "routes" _ _ _ (List.Mem.tail _ (List.Mem.head _))
      (ContainsFile.there "sub" _ _ _ (List.Mem.head _) (ContainsFile.here _))
  exact ⟨(loader_registers_all_route_files sampleRoutesDir).1 _ hc,
    (loader_registers_all_route_files sampleRoutesDir).2 _ "counter" hc
      (List.Mem.head _)⟩

/-- Claim C5: `use_state idx v c` returns a pair whose first component is the
component-local state stored for that call site (the initial value `v` when
nothing is stored yet), and whose second component is a setter that stores a
new value and triggers the enclosing component's re-render. -/
theorem use_state_value_setter_contract {α : Type} (idx : Nat) (v : α)
    (c : Component α) :
    (lookupSlot c.slots idx = none → (use_state idx v c).1 = v)
    ∧ (∀ w, lookupSlot c.slots idx = some w → (use_state idx v c).1 = w)
    ∧ (∀ (x : α) (c2 : Component α),
        lookupSlot (((use_state idx v c).2 x c2).slots) idx = some x
        ∧ ((use_state idx v c).2 x c2).needsRender = true) := by
  refine ⟨fun h => ?_, fun w h => ?_, fun x c2 => ⟨?_, rfl⟩⟩
  · simp [use_state, h]
  · simp [use_state, h]
  · simp [use_state, lookupSlot, List.find?]

theorem use_state_contract_witness :
    (use_state 0 (0 : Nat) ⟨[], false⟩).1 = 0
    ∧ (use_state 0 (0 : Nat) ⟨[(0, 5)], false⟩).1 = 5
    ∧ lookupSlot (((use_state 0 (0 : Nat) ⟨[], false⟩).2 1 ⟨[], false⟩).slots) 0 = some 1
    ∧ ((use_state 0 (0 : Nat) ⟨[], false⟩).2 1 ⟨[], false⟩).needsRender = true :=
  ⟨(use_state_value_setter_contract 0 0 ⟨[], false⟩).1 rfl,
    (use_state_value_setter_contract 0 0 ⟨[(0, 5)], false⟩).2.1 5 rfl,
    ((use_state_value_setter_contract 0 0 ⟨[], false⟩).2.2 1 ⟨[], false⟩).1,
    ((use_state_value_setter_contract 0 0 ⟨[], false⟩).2.2 1 ⟨[], false⟩).2⟩

/-- Claim C6: the user's `ui` options dictionary reaches the wrapped
framework's constructor with identical keys and values, and the options of a
`listen` call reach the framework's run call identically — nothing added,
dropped or altered. -/
theorem server_config_forwarded_verbatim (κ : Type)
    (uiOpts listenOpts : List (String × κ)) :
    ((Server.mk uiOpts).frameworkCtor).kwargs = uiOpts
    ∧ ((Server.mk uiOpts).listen listenOpts).kwargs = listenOpts :=
  ⟨rfl, rfl⟩

/-- Claim C7: running the framework calls of a `with theme.build():` block
against a fallible framework, the package adds no error handling of its own:
when every framework call succeeds the whole build succeeds, any error the
run ends with is the error of one of the framework calls (unchanged), and the
first failing framework call's error is exactly the error the build ends
with. -/
theorem framework_errors_propagate_unchanged (ε : Type)
    (handler : Effect → Except ε Unit) (tb : ThemeBuild) (caller : List Effect) :
    ((∀ e ∈ tb.buildTrace caller, handler e = Except.ok ()) →
        runEffects handler (tb.buildTrace caller) = Except.ok ())
    ∧ (∀ err, runEffects handler (tb.buildTrace caller) = Except.error err →
        ∃ e ∈ tb.buildTrace caller, handler e = Except.error err)
    ∧ (∀ pre e post err, tb.buildTrace caller = pre ++ e :: post →
        (∀ x ∈ pre, handler x = Except.ok ()) → handler e = Except.error err →
        runEffects handler (tb.buildTrace caller) = Except.error err) :=
  ⟨runEffects_all_ok handler _,
    runEffects_error_mem handler _,
    fun pre e post err hsplit hpre he => by
      rw [hsplit]
      exact runEffects_first_error handler pre e post err hpre he⟩

theorem framework_errors_witness :
    runEffects (fun _ => (Except.ok () : Except Unit Unit))
      (ThemeBuild.buildTrace { theme := [] } []) = Except.ok () :=
  (framework_errors_propagate_unchanged Unit (fun _ => Except.ok ())
    { theme := [] } []).1 (fun _ _ => rfl)
